import Mathlib

/-!
Verification of the thinkerbell rule engine (compile.rs, run.rs, values.rs)
against its natural-language specification.

The development shallowly embeds the Rust sources:
  * `Value`, `Ty` model the external taxonomy value interface the spec
    describes (a type tag per value, total order within one type, all
    comparisons across two different types false, cross-type equality false);
  * `Range` with `Range.contains` and `Range.get_type` is translated from
    src/src/values.rs;
  * the AST (`Match`, `Rule`, `Script`, `Statement`) and the compiler
    (`compile_match`, `compile_trigger`, `compile_script`) are translated from
    src/src/compile.rs (AST shapes reconstructed from their uses there, since
    ast.rs is not part of the source tree);
  * the execution task's per-event state transition (`step`) is translated
    from the event loop of `ExecutionTask::run` in src/src/run.rs;
  * the execution controller (`Execution.start`, `Execution.stop`) is
    translated from src/src/run.rs.
-/

deriving instance DecidableEq for Except

/-- Modelled from the spec: the type tag of a taxonomy value (`Type` in the
external taxonomy crate; the core "only requires comparability and a
`get_type()` on every value"). We model the set of type tags as `Nat`. -/
abbrev Ty := Nat

/-- Modelled from the spec: a taxonomy `Value`. "Each value reports a *Type*
tag via `get_type()`; values are totally ordered within compatible types.
Equality is defined across types (cross-type equality is false)." We model a
value as its type tag together with an integer payload; values of one type are
totally ordered by their payload. -/
structure Value where
  ty : Ty
  payload : Int
deriving DecidableEq, Repr

/-- The type tag of a value (taxonomy `Value::get_type`). -/
def Value.get_type (v : Value) : Ty := v.ty

/-- The taxonomy partial order `v <= w`: false across two different types,
the payload order within one type. -/
def vle (v w : Value) : Bool := v.ty == w.ty && decide (v.payload ≤ w.payload)

/-- The taxonomy strict order `v < w`: false across two different types,
the strict payload order within one type. -/
def vlt (v w : Value) : Bool := v.ty == w.ty && decide (v.payload < w.payload)

/-- Translated from src/src/values.rs: the `Range` enum. -/
inductive Range where
  /-- Leq(x) accepts any value v such that v <= x. -/
  | Leq (v : Value)
  /-- Geq(x) accepts any value v such that v >= x. -/
  | Geq (v : Value)
  /-- BetweenEq {min, max} accepts any value v such that `min <= v` and
  `v <= max`. If `max < min`, it never accepts anything. -/
  | BetweenEq (min max : Value)
  /-- OutOfStrict {min, max} accepts any value v such that `v < min` or
  `max < v`. -/
  | OutOfStrict (min max : Value)
  | Eq (v : Value)
  /-- `Any` accepts all values. -/
  | Any
deriving DecidableEq, Repr

/-- Translated from src/src/values.rs, `Range::contains`. -/
def Range.contains (r : Range) (value : Value) : Bool :=
  match r with
  | .Leq max => vle value max
  | .Geq min => vle min value
  | .BetweenEq min max => vle min value && vle value max
  | .OutOfStrict min max => vlt value min || vlt max value
  | .Eq val => value == val
  | .Any => true

/-- Translated from src/src/values.rs, `Range::get_type`
(`Result<Option<Type>, ()>` becomes `Except Unit (Option Ty)`). -/
def Range.get_type (r : Range) : Except Unit (Option Ty) :=
  match r with
  | .Leq v => .ok (some v.get_type)
  | .Geq v => .ok (some v.get_type)
  | .Eq v => .ok (some v.get_type)
  | .BetweenEq min max =>
      if min.get_type = max.get_type then .ok (some min.get_type) else .error ()
  | .OutOfStrict min max =>
      if min.get_type = max.get_type then .ok (some min.get_type) else .error ()
  | .Any => .ok none

/-!
## The AST consumed and produced by the compiler

compile.rs imports `ast::{Script, Rule, Statement, Match, Context, UncheckedCtx}`;
ast.rs itself is not part of the source tree, so the shapes below are
reconstructed from their uses in compile.rs and run.rs and from §3 of the
specification. The unchecked and compiled contexts share the same shape and
differ only in the kind annotations carried by selectors, so we use a single
set of Lean types for both phases.
-/

/-- Modelled from the spec: a data-kind tag (taxonomy `ChannelKind`; e.g.
Temperature, Boolean). compile.rs only uses its `get_type()`, whose result is
compared against the `Option<Type>` produced by `Range::get_type`, so we model
a kind by that result. -/
structure Kind where
  get_type : Option Ty
deriving DecidableEq, Repr

/-- Modelled from the spec: a sensor / actuator selector. The compiler only
rewrites a selector `with_kind`; we model a selector as an opaque identifier
plus the kind annotation the rewrite installs. -/
structure Selector where
  id : Nat
  kind : Option Kind
deriving DecidableEq, Repr

/-- Modelled from the spec: `Selector::with_kind` annotates the selector with
the expected data kind "so subscription requests are type-constrained". -/
def Selector.with_kind (s : Selector) (k : Kind) : Selector :=
  { s with kind := some k }

/-- Modelled from the spec: `ast::Match` — one condition clause, with fields
`source`, `kind`, `range` as used by `Compiler::compile_match`. -/
structure Match where
  source : List Selector
  kind : Kind
  range : Range
deriving DecidableEq, Repr

/-- Modelled from the spec: `ast::Statement` — one action, with fields
`destination`, `value`, `kind` as used by `Compiler::compile_statement`. -/
structure Statement where
  destination : List Selector
  value : Value
  kind : Kind
deriving DecidableEq, Repr

/-- Modelled from the spec: `ast::Rule` — one automation trigger, with fields
`conditions`, `execute` as used by `Compiler::compile_trigger`. -/
structure Rule where
  conditions : List Match
  execute : List Statement
deriving DecidableEq, Repr

/-- Modelled from the spec: `ast::Script` — the top-level rule set. -/
structure Script where
  rules : List Rule
deriving DecidableEq, Repr

/-!
## The compiler (translated from src/src/compile.rs)
-/

/-- Translated from src/src/compile.rs: `SourceError`. -/
inductive SourceError where
  | NoRules
  | NoStatements
  | NoConditions
deriving DecidableEq, Repr

/-- Translated from src/src/compile.rs: `TypeError`. -/
inductive TypeError where
  | InvalidRange
  | KindAndRangeDoNotAgree
deriving DecidableEq, Repr

/-- Translated from src/src/compile.rs: `Error`. -/
inductive CompileError where
  | SourceError (e : SourceError)
  | TypeError (e : TypeError)
deriving DecidableEq, Repr

/-- Modelled from the spec: `util::map` (util.rs is not part of the source
tree). It maps a fallible function over a vector; per §4.1 "errors are
reported on the first violation encountered in document order; the compiler
does not accumulate multiple errors", so the first error aborts the map. -/
def map (l : List α) (f : α → Except ε β) : Except ε (List β) :=
  match l with
  | [] => .ok []
  | x :: xs =>
    match f x with
    | .error e => .error e
    | .ok y =>
      match map xs f with
      | .error e => .error e
      | .ok ys => .ok (y :: ys)

/-- Translated from src/src/compile.rs: `Compiler::compile_match`. -/
def compile_match (m : Match) : Except CompileError Match :=
  match m.range.get_type with
  | .error _ => .error (.TypeError .InvalidRange)
  | .ok typ =>
    if m.kind.get_type ≠ typ then .error (.TypeError .KindAndRangeDoNotAgree)
    else .ok { source := m.source.map (fun input => input.with_kind m.kind)
               kind := m.kind
               range := m.range }

/-- Translated from src/src/compile.rs: `Compiler::compile_statement`. -/
def compile_statement (s : Statement) : Except CompileError Statement :=
  .ok { destination := s.destination.map (fun output => output.with_kind s.kind)
        value := s.value
        kind := s.kind }

/-- Translated from src/src/compile.rs: `Compiler::compile_trigger`. -/
def compile_trigger (trigger : Rule) : Except CompileError Rule :=
  if trigger.execute.length = 0 then .error (.SourceError .NoStatements)
  else if trigger.conditions.length = 0 then .error (.SourceError .NoConditions)
  else
    match map trigger.conditions (fun m => compile_match m) with
    | .error e => .error e
    | .ok conditions =>
      match map trigger.execute (fun s => compile_statement s) with
      | .error e => .error e
      | .ok execute => .ok { conditions := conditions, execute := execute }

/-- Translated from src/src/compile.rs: `Compiler::compile_script`
(also `Compiler::compile`, which just forwards to it). -/
def compile_script (script : Script) : Except CompileError Script :=
  if script.rules.length = 0 then .error (.SourceError .NoRules)
  else
    match map script.rules (fun rule => compile_trigger rule) with
    | .error e => .error e
    | .ok rules => .ok { rules := rules }

/-!
## The execution task (translated from `ExecutionTask::run` in src/src/run.rs)

The task keeps one `RuleState` per rule; each holds one `ConditionState` per
condition of the rule, and each condition tracks a `HashMap<Id<Getter>, bool>`
of the sensors currently matching its selector. We model sensor ids as `Nat`
and the hash map as an association list whose operations mirror the
`HashMap::insert` / `HashMap::remove` / `values()` calls in the source
(iteration order is irrelevant: the source only tests whether some value in
the map is `true`).
-/

/-- Model of `HashMap::insert id b`: overwrite the entry for `id` if present,
otherwise add one. (The source ignores `insert`'s returned old value.) -/
def mapInsert (id : Nat) (b : Bool) (m : List (Nat × Bool)) : List (Nat × Bool) :=
  if m.any (fun p => p.1 == id) then
    m.map (fun p => if p.1 == id then (id, b) else p)
  else
    (id, b) :: m

/-- Model of `HashMap::remove id`. -/
def mapRemove (id : Nat) (m : List (Nat × Bool)) : List (Nat × Bool) :=
  m.filter (fun p => p.1 != id)

/-- Model of `HashMap::get id`: the flag stored for sensor `id`, if any. -/
def mapLookup (id : Nat) (m : List (Nat × Bool)) : Option Bool :=
  (m.find? (fun p => p.1 == id)).map (fun p => p.2)

/-- Translated from src/src/run.rs: the local `ConditionState` struct of
`ExecutionTask::run`. -/
structure ConditionState where
  match_is_met : Bool
  per_getter : List (Nat × Bool)
  range : Range
deriving DecidableEq, Repr

/-- Translated from src/src/run.rs: the local `RuleState` struct of
`ExecutionTask::run`. -/
structure RuleState where
  rule_is_met : Bool
  per_condition : List ConditionState
deriving DecidableEq, Repr

/-- Placeholder condition state used by total list indexing; every theorem
about the task constrains the indices to be in bounds, where this default is
never read. -/
def dfltCond : ConditionState := { match_is_met := false, per_getter := [], range := .Any }

/-- Placeholder rule state used by total list indexing (see `dfltCond`). -/
def dfltRule : RuleState := { rule_is_met := false, per_condition := [] }

/-- Placeholder rule used by total list indexing (see `dfltCond`). -/
def dfltScriptRule : Rule := { conditions := [], execute := [] }

/-- Translated from src/src/run.rs: the initial `per_rule` state built at the
top of `ExecutionTask::run` — everything starts `false` / empty, and each
condition caches its compiled range. -/
def initState (script : Script) : List RuleState :=
  script.rules.map (fun rule =>
    { rule_is_met := false
      per_condition := rule.conditions.map (fun condition =>
        { match_is_met := false
          per_getter := []
          range := condition.range }) })

/-- Translated from src/src/run.rs: the `WatchEvent` variants delivered by the
device API (`foxbox_taxonomy::api::WatchEvent`) that the loop matches on. The
`InitializationError` payload is reduced to the channel id. -/
inductive WatchEvent where
  | GetterAdded (id : Nat)
  | GetterRemoved (id : Nat)
  | EnterRange (id : Nat) (value : Value)
  | ExitRange (id : Nat) (value : Value)
  | InitializationError (id : Nat)
deriving DecidableEq, Repr

/-- Translated from src/src/run.rs: the `ExecutionEvent`s the loop actually
sends while processing an `ExecutionOp::Update` (`Sent` is reduced to its
`rule_index` / `statement_index`, `ChannelError` to the channel id; the loop
never constructs `Starting`, `Stopped` or `Updated`). -/
inductive ExecutionEvent where
  | Sent (rule_index statement_index : Nat)
  | ChannelError (id : Nat)
deriving DecidableEq, Repr

/-- Translated from src/src/run.rs, lines 265-299: the effect of one
`EnterRange`/`ExitRange` event on the condition state it is routed to. The
task recomputes `range.contains(value)`, stores it into `per_getter[id]`, and
recomputes `match_is_met` as "the just-stored flag, or some value in the map
is true" (the map is read after the insertion). -/
def ConditionState.processValue (cs : ConditionState) (id : Nat) (value : Value) :
    ConditionState :=
  let getter_is_met := cs.range.contains value
  let per_getter := mapInsert id getter_is_met cs.per_getter
  let some_getter_is_met := getter_is_met || per_getter.any (fun p => p.2)
  { cs with per_getter := per_getter, match_is_met := some_getter_is_met }

/-- Translated from src/src/run.rs, lines 265-317: the effect of one
`EnterRange`/`ExitRange` event on the whole rule state. After the condition
state is updated, `condition_is_met` is recomputed over the rule's conditions
exactly as the source does — `find(|c| c.match_is_met).is_some()` — and
swapped into `rule_is_met`; the returned flag says whether the swap was a
rising edge (`!condition_was_met && condition_is_met`), which is when the
source dispatches the rule's statements. -/
def RuleState.processValue (rs : RuleState) (condition_index id : Nat) (value : Value) :
    RuleState × Bool :=
  let cs := (rs.per_condition.getD condition_index dfltCond).processValue id value
  let per_condition := rs.per_condition.set condition_index cs
  let condition_is_met := (per_condition.find? (fun c => c.match_is_met)).isSome
  let condition_was_met := rs.rule_is_met
  ({ rule_is_met := condition_is_met, per_condition := per_condition },
   !condition_was_met && condition_is_met)

/-- Translated from src/src/run.rs, lines 235-327: processing one
`ExecutionOp::Update { event, rule_index, condition_index }` in the event
loop. Returns the new `per_rule` state and the `ExecutionEvent`s sent while
processing the event (on a rising edge, one `Sent` per statement of the rule,
in document order). -/
def step (script : Script) (st : List RuleState) (rule_index condition_index : Nat) :
    WatchEvent → List RuleState × List ExecutionEvent
  | .InitializationError id => (st, [.ChannelError id])
  | .GetterRemoved id =>
    let rs := st.getD rule_index dfltRule
    let cs := rs.per_condition.getD condition_index dfltCond
    (st.set rule_index
      { rs with per_condition :=
          rs.per_condition.set condition_index { cs with per_getter := mapRemove id cs.per_getter } },
     [])
  | .GetterAdded id =>
    let rs := st.getD rule_index dfltRule
    let cs := rs.per_condition.getD condition_index dfltCond
    (st.set rule_index
      { rs with per_condition :=
          rs.per_condition.set condition_index { cs with per_getter := mapInsert id false cs.per_getter } },
     [])
  | .EnterRange id value =>
    let res := (st.getD rule_index dfltRule).processValue condition_index id value
    (st.set rule_index res.1,
     if res.2 then
       (List.range (script.rules.getD rule_index dfltScriptRule).execute.length).map
         (fun statement_index => .Sent rule_index statement_index)
     else [])
  | .ExitRange id value =>
    let res := (st.getD rule_index dfltRule).processValue condition_index id value
    (st.set rule_index res.1,
     if res.2 then
       (List.range (script.rules.getD rule_index dfltScriptRule).execute.length).map
         (fun statement_index => .Sent rule_index statement_index)
     else [])

/-!
## The execution controller (translated from `Execution` in src/src/run.rs)

`Execution::start` spawns a worker thread that compiles the script
(`ExecutionTask::new`) and reports the outcome back across a one-time
rendezvous channel, so the value `start` returns is determined by the
compilation result; the `command_sender` field is set to `Some` before the
worker is spawned and is not reset when compilation fails. `Execution::stop`
reports `NotRunning` when `command_sender` is `None` and otherwise sends the
`Stop` message (whose callback the worker, if alive, answers with `Ok`); in
both branches it then clears `command_sender`. We model the controller by its
`command_sender` field and `start`/`stop` by their synchronous outcome.
-/

/-- Translated from src/src/run.rs: `StartStopError`. -/
inductive StartStopError where
  | AlreadyRunning
  | NotRunning
  | ThreadError
deriving DecidableEq, Repr

/-- Translated from src/src/run.rs: `Error` (the `APIError` payload is
reduced to a unit, as the device API is opaque to the core). -/
inductive RunError where
  | CompileError (e : CompileError)
  | StartStopError (e : StartStopError)
  | APIError (e : Unit)
deriving DecidableEq, Repr

/-- Translated from src/src/run.rs: the `Execution` controller, reduced to its
`command_sender` field (the sender itself is opaque). -/
structure Execution where
  command_sender : Option Unit
deriving DecidableEq, Repr

/-- Translated from src/src/run.rs: `Execution::new`. -/
def Execution.new : Execution := { command_sender := none }

/-- Translated from src/src/run.rs: `Execution::start`, reduced to its effect
on `command_sender` and its returned `Result`. If a sender is already present
the call fails with `AlreadyRunning` and changes nothing; otherwise the sender
is installed unconditionally and the result is the compilation outcome
reported across the rendezvous channel. -/
def Execution.start (ex : Execution) (script : Script) :
    Execution × Except RunError Unit :=
  match ex.command_sender with
  | some _ => (ex, .error (.StartStopError .AlreadyRunning))
  | none =>
    ({ command_sender := some () },
     match compile_script script with
     | .error e => .error (.CompileError e)
     | .ok _ => .ok ())

/-- Translated from src/src/run.rs: `Execution::stop`, reduced to its effect
on `command_sender` and the result its callback observes. With no sender the
callback is invoked with `NotRunning`; with a sender the `Stop` message is
sent (the worker answers `Ok`). In both branches `command_sender` is cleared. -/
def Execution.stop (ex : Execution) : Execution × Except RunError Unit :=
  match ex.command_sender with
  | none => ({ command_sender := none }, .error (.StartStopError .NotRunning))
  | some _ => ({ command_sender := none }, .ok ())
/-!
## Helper lemmas about values and ranges
-/

/-- A successful taxonomy comparison forces the two type tags to agree. -/
theorem vle_ty {v w : Value} (h : vle v w = true) : v.ty = w.ty := by
  simp only [vle, Bool.and_eq_true, beq_iff_eq] at h
  exact h.1

/-- A successful strict taxonomy comparison forces the two type tags to agree. -/
theorem vlt_ty {v w : Value} (h : vlt v w = true) : v.ty = w.ty := by
  simp only [vlt, Bool.and_eq_true, beq_iff_eq] at h
  exact h.1

/-- Soundness of `Range::get_type`: when it reports the single type `t`, every
value the range contains has type `t`. -/
theorem Range.type_of_contains {r : Range} {t : Ty} {v : Value}
    (hr : r.get_type = .ok (some t)) (hc : r.contains v = true) : v.get_type = t := by
  cases r with
  | Leq max =>
    simp only [Range.get_type, Except.ok.injEq, Option.some.injEq, Value.get_type] at hr
    simp only [Range.contains] at hc
    simpa [Value.get_type, vle_ty hc] using hr
  | Geq min =>
    simp only [Range.get_type, Except.ok.injEq, Option.some.injEq, Value.get_type] at hr
    simp only [Range.contains] at hc
    simpa [Value.get_type, (vle_ty hc).symm] using hr
  | Eq x =>
    simp only [Range.get_type, Except.ok.injEq, Option.some.injEq, Value.get_type] at hr
    simp only [Range.contains, beq_iff_eq] at hc
    simpa [Value.get_type, hc] using hr
  | BetweenEq min max =>
    simp only [Range.get_type, Value.get_type] at hr
    by_cases hmm : min.ty = max.ty
    · rw [if_pos hmm] at hr
      simp only [Except.ok.injEq, Option.some.injEq] at hr
      simp only [Range.contains, Bool.and_eq_true] at hc
      simpa [Value.get_type, (vle_ty hc.1).symm] using hr
    · simp [hmm] at hr
  | OutOfStrict min max =>
    simp only [Range.get_type, Value.get_type] at hr
    by_cases hmm : min.ty = max.ty
    · rw [if_pos hmm] at hr
      simp only [Except.ok.injEq, Option.some.injEq] at hr
      simp only [Range.contains, Bool.or_eq_true] at hc
      rcases hc with hc | hc
      · simpa [Value.get_type, vlt_ty hc] using hr
      · have := (vlt_ty hc).symm
        simp only [Value.get_type]
        rw [this, ← hmm]
        exact hr
    · simp [hmm] at hr
  | Any => simp [Range.get_type] at hr

/-- A value of a type different from the range's single type is never
contained. -/
theorem Range.contains_eq_false_of_ne_type {r : Range} {t : Ty} {v : Value}
    (hr : r.get_type = .ok (some t)) (hv : v.get_type ≠ t) : r.contains v = false := by
  by_contra h
  exact hv (Range.type_of_contains hr (by revert h; cases r.contains v <;> simp))
/-- C6: For every Range and every value whose type is incompatible with the
range's type, `range.contains(value)` returns false — a misrouted value of the
wrong type never satisfies a range. -/
theorem C6_contains_false_across_types (r : Range) (t : Ty) (v : Value)
    (hr : r.get_type = .ok (some t)) (hv : v.get_type ≠ t) : r.contains v = false :=
  Range.contains_eq_false_of_ne_type hr hv

/-- Witness for C6 at a concrete input: a numeric range never contains a value
of another type. -/
theorem C6_contains_false_across_types_witness :
    (Range.Leq ⟨0, 5⟩).get_type = .ok (some 0)
    ∧ Value.get_type ⟨1, 3⟩ ≠ 0
    ∧ (Range.Leq ⟨0, 5⟩).contains ⟨1, 3⟩ = false :=
  ⟨by decide, by decide, C6_contains_false_across_types _ 0 _ (by decide) (by decide)⟩

/-- C7: For every Range variant and every value `v` of the range's type,
`contains` agrees with the mathematical definition of the variant: `Leq(max)`
accepts `v ≤ max`, `Geq(min)` accepts `v ≥ min`, `Eq(x)` accepts `v == x`,
`BetweenEq{min,max}` accepts `min ≤ v ≤ max` and accepts nothing when
`max < min`, `OutOfStrict{min,max}` accepts `v < min ∨ max < v`, and `Any`
accepts every value. ("Of the range's type" is expressed as
`get_type = Ok(Some(v.get_type))`; the order on one type is the payload
order.) -/
theorem C7_contains_matches_math (v : Value) :
    (∀ max : Value, (Range.Leq max).get_type = .ok (some v.get_type) →
      ((Range.Leq max).contains v = true ↔ v.payload ≤ max.payload))
    ∧ (∀ min : Value, (Range.Geq min).get_type = .ok (some v.get_type) →
      ((Range.Geq min).contains v = true ↔ min.payload ≤ v.payload))
    ∧ (∀ x : Value, (Range.Eq x).get_type = .ok (some v.get_type) →
      ((Range.Eq x).contains v = true ↔ v = x))
    ∧ (∀ min max : Value, (Range.BetweenEq min max).get_type = .ok (some v.get_type) →
      (((Range.BetweenEq min max).contains v = true ↔
          (min.payload ≤ v.payload ∧ v.payload ≤ max.payload))
        ∧ (max.payload < min.payload → (Range.BetweenEq min max).contains v = false)))
    ∧ (∀ min max : Value, (Range.OutOfStrict min max).get_type = .ok (some v.get_type) →
      ((Range.OutOfStrict min max).contains v = true ↔
          (v.payload < min.payload ∨ max.payload < v.payload)))
    ∧ (Range.Any.contains v = true) := by
  refine ⟨?_, ?_, ?_, ?_, ?_, by simp [Range.contains]⟩
  · intro max h
    simp only [Range.get_type, Except.ok.injEq, Option.some.injEq, Value.get_type] at h
    simp [Range.contains, vle, h]
  · intro min h
    simp only [Range.get_type, Except.ok.injEq, Option.some.injEq, Value.get_type] at h
    simp [Range.contains, vle, h]
  · intro x _
    simp [Range.contains]
  · intro min max h
    simp only [Range.get_type, Value.get_type] at h
    by_cases hmm : min.ty = max.ty
    · rw [if_pos hmm] at h
      simp only [Except.ok.injEq, Option.some.injEq] at h
      constructor
      · simp [Range.contains, vle, h, hmm ▸ h]
      · intro hlt
        simp only [Range.contains, vle, h, hmm ▸ h, Bool.and_eq_false_iff]
        simp only [beq_self_eq_true, Bool.true_and, decide_eq_false_iff_not, not_le]
        omega
    · simp [hmm] at h
  · intro min max h
    simp only [Range.get_type, Value.get_type] at h
    by_cases hmm : min.ty = max.ty
    · rw [if_pos hmm] at h
      simp only [Except.ok.injEq, Option.some.injEq] at h
      simp [Range.contains, vlt, h, hmm ▸ h]
    · simp [hmm] at h

/-- Witness for C7 at a concrete input: the `BetweenEq` clause at
`min = (0,1)`, `max = (0,4)`, `v = (0,3)`. -/
theorem C7_contains_matches_math_witness :
    (Range.BetweenEq ⟨0, 1⟩ ⟨0, 4⟩).get_type = .ok (some (Value.get_type ⟨0, 3⟩))
    ∧ ((Range.BetweenEq ⟨0, 1⟩ ⟨0, 4⟩).contains ⟨0, 3⟩ = true ↔
        ((1 : Int) ≤ 3 ∧ (3 : Int) ≤ 4)) :=
  ⟨by decide, ((C7_contains_matches_math ⟨0, 3⟩).2.2.2.1 ⟨0, 1⟩ ⟨0, 4⟩ (by decide)).1⟩

/-- C8 as stated is false: `get_type` does not return `Ok(Some(t))` "exactly
when" all contained values share the type `t`. The range
`BetweenEq {min := (ty 0, 0), max := (ty 1, 0)}` straddles two types, so it
contains no value at all — vacuously every contained value shares type 0 —
yet `get_type` returns `Err`, not `Ok(Some(0))`. -/
theorem C8_counterexample :
    ¬ (∀ (r : Range) (t : Ty),
        r.get_type = .ok (some t) ↔ (∀ v : Value, r.contains v = true → v.get_type = t)) := by
  intro h
  have hvac : ∀ v : Value, (Range.BetweenEq ⟨0, 0⟩ ⟨1, 0⟩).contains v = true → v.get_type = 0 := by
    intro v hv
    exfalso
    simp only [Range.contains, Bool.and_eq_true] at hv
    have h1 : (0 : Nat) = v.ty := vle_ty hv.1
    have h2 : v.ty = 1 := vle_ty hv.2
    exact absurd (h1.trans h2) (by decide)
  have := (h (Range.BetweenEq ⟨0, 0⟩ ⟨1, 0⟩) 0).mpr hvac
  simp [Range.get_type, Value.get_type] at this

/-- C8 amended: `get_type()` returns `Ok(Some(t))` only when all values
contained in the range share the type `t`, returns `Ok(None)` for the `Any`
variant, and returns `Err` exactly when a `BetweenEq` or `OutOfStrict` range's
`min` and `max` have two incompatible types. -/
theorem C8_get_type_spec :
    (∀ (r : Range) (t : Ty), r.get_type = .ok (some t) →
        ∀ v : Value, r.contains v = true → v.get_type = t)
    ∧ Range.Any.get_type = .ok none
    ∧ (∀ r : Range, r.get_type = .error () ↔
        (∃ min max : Value, (r = .BetweenEq min max ∨ r = .OutOfStrict min max)
          ∧ min.get_type ≠ max.get_type)) := by
  refine ⟨fun r t hr v hc => Range.type_of_contains hr hc, rfl, ?_⟩
  intro r
  cases r with
  | Leq w => simp [Range.get_type]
  | Geq w => simp [Range.get_type]
  | Eq w => simp [Range.get_type]
  | BetweenEq min max =>
    simp only [Range.get_type, Value.get_type]
    by_cases hmm : min.ty = max.ty
    · rw [if_pos hmm]
      constructor
      · intro h
        exact absurd h (by simp)
      · rintro ⟨a, b, hab | hab, hne⟩
        · exfalso
          injection hab with h1 h2
          exact hne (by simpa [Value.get_type, ← h1, ← h2] using hmm)
        · exact Range.noConfusion hab
    · rw [if_neg hmm]
      exact ⟨fun _ => ⟨min, max, Or.inl rfl, by simpa [Value.get_type] using hmm⟩,
             fun _ => rfl⟩
  | OutOfStrict min max =>
    simp only [Range.get_type, Value.get_type]
    by_cases hmm : min.ty = max.ty
    · rw [if_pos hmm]
      constructor
      · intro h
        exact absurd h (by simp)
      · rintro ⟨a, b, hab | hab, hne⟩
        · exact Range.noConfusion hab
        · exfalso
          injection hab with h1 h2
          exact hne (by simpa [Value.get_type, ← h1, ← h2] using hmm)
    · rw [if_neg hmm]
      exact ⟨fun _ => ⟨min, max, Or.inr rfl, by simpa [Value.get_type] using hmm⟩,
             fun _ => rfl⟩
  | Any => simp [Range.get_type]

/-- Witness for C8 (amended) at concrete inputs: the soundness clause at a
numeric `Geq` range, and the `Err` clause at a straddling `OutOfStrict`. -/
theorem C8_get_type_spec_witness :
    Value.get_type ⟨0, 7⟩ = 0
    ∧ (Range.OutOfStrict ⟨0, 0⟩ ⟨1, 0⟩).get_type = .error () :=
  ⟨C8_get_type_spec.1 (Range.Geq ⟨0, 3⟩) 0 (by decide) ⟨0, 7⟩ (by decide),
   (C8_get_type_spec.2.2 (Range.OutOfStrict ⟨0, 0⟩ ⟨1, 0⟩)).mpr
     ⟨⟨0, 0⟩, ⟨1, 0⟩, Or.inr rfl, by decide⟩⟩
/-- C4 as stated is false: a Match whose range is `Any` has
`range.get_type() = Ok(None)` — not `Ok(Some(t))` for any `t` — yet
`compile_match` does not reject it with `InvalidRange` (compile.rs:137-140
maps only `Err` to `InvalidRange`); with a kind of type 0 it is rejected with
`KindAndRangeDoNotAgree` instead. -/
theorem C4_counterexample :
    Range.Any.get_type = .ok none
    ∧ compile_match { source := [], kind := { get_type := some 0 }, range := .Any } ≠
        .error (.TypeError .InvalidRange)
    ∧ compile_match { source := [], kind := { get_type := some 0 }, range := .Any } =
        .error (.TypeError .KindAndRangeDoNotAgree) := by
  refine ⟨rfl, by decide, by decide⟩

/-- C4 amended: For each Match, compilation fails with `TypeError::InvalidRange`
exactly when the range's `get_type()` returns `Err`; otherwise, with `typ` the
returned `Option<Type>`, it fails with `TypeError::KindAndRangeDoNotAgree`
unless the match's kind's `get_type()` equals `typ` (so a Match whose range is
`Any` is accepted only by a kind with no type); in particular a Match whose
range cannot be typed, or whose kind disagrees with the range's type, is
rejected at compile time. -/
theorem C4_compile_match_spec (m : Match) :
    (compile_match m = .error (.TypeError .InvalidRange) ↔ m.range.get_type = .error ())
    ∧ (∀ typ : Option Ty, m.range.get_type = .ok typ →
        (m.kind.get_type ≠ typ →
          compile_match m = .error (.TypeError .KindAndRangeDoNotAgree))
        ∧ (m.kind.get_type = typ → ∃ m', compile_match m = .ok m')) := by
  constructor
  · unfold compile_match
    cases hr : m.range.get_type with
    | error e => simp
    | ok typ =>
      by_cases hk : m.kind.get_type = typ
      · simp [hk]
      · simp [hk]
  · intro typ hr
    constructor
    · intro hk
      unfold compile_match
      rw [hr]
      simp [hk]
    · intro hk
      refine ⟨{ source := m.source.map (fun input => input.with_kind m.kind),
                kind := m.kind, range := m.range }, ?_⟩
      unfold compile_match
      rw [hr]
      simp [hk]

/-- Witness for C4 (amended) at a concrete input: an untypable range is
rejected as `InvalidRange`, and a well-typed numeric `Geq` match compiles. -/
theorem C4_compile_match_spec_witness :
    compile_match { source := [], kind := ⟨some 0⟩, range := .BetweenEq ⟨0, 0⟩ ⟨1, 0⟩ } =
      .error (.TypeError .InvalidRange)
    ∧ ∃ m', compile_match { source := [], kind := ⟨some 0⟩, range := .Geq ⟨0, 3⟩ } = .ok m' :=
  ⟨(C4_compile_match_spec _).1.mpr (by decide),
   ((C4_compile_match_spec { source := [], kind := ⟨some 0⟩, range := .Geq ⟨0, 3⟩ }).2
      (some 0) (by decide)).2 (by decide)⟩

/-- C9: If `start` on a fresh controller fails with a compilation error, the
controller nevertheless retains its command sender and considers itself
running: a second `start` returns `AlreadyRunning`, a `stop` does not report
`NotRunning`, and only `stop` restores the not-running state. -/
theorem C9_start_failure_keeps_running (script : Script) (e : CompileError)
    (h : compile_script script = .error e) :
    (Execution.new.start script).2 = .error (.CompileError e)
    ∧ (Execution.new.start script).1.command_sender ≠ none
    ∧ (∀ script2 : Script,
        ((Execution.new.start script).1.start script2).2 =
          .error (.StartStopError .AlreadyRunning))
    ∧ ((Execution.new.start script).1.stop).2 ≠ .error (.StartStopError .NotRunning)
    ∧ ((Execution.new.start script).1.stop).1.command_sender = none := by
  refine ⟨?_, ?_, ?_, ?_, ?_⟩ <;>
    simp [Execution.new, Execution.start, Execution.stop, h]

/-- Witness for C9 at a concrete input: the empty script fails compilation
with `NoRules`, after which the controller claims `AlreadyRunning`. -/
theorem C9_start_failure_keeps_running_witness :
    compile_script { rules := [] } = .error (.SourceError .NoRules)
    ∧ ((Execution.new.start { rules := [] }).1.start { rules := [] }).2 =
        .error (.StartStopError .AlreadyRunning) :=
  ⟨by decide,
   (C9_start_failure_keeps_running { rules := [] } (.SourceError .NoRules)
      (by decide)).2.2.1 { rules := [] }⟩

/-- Concrete script exhibiting the conjunction bug of C1: one rule with two
conditions (both `Geq (ty 0, 3)`, each over its own sensors) and one
statement. -/
def scriptC1 : Script :=
  { rules := [{
      conditions := [
        { source := [{ id := 0, kind := none }], kind := { get_type := some 0 },
          range := .Geq ⟨0, 3⟩ },
        { source := [{ id := 1, kind := none }], kind := { get_type := some 0 },
          range := .Geq ⟨0, 3⟩ }],
      execute := [{ destination := [{ id := 9, kind := none }], value := ⟨0, 1⟩,
                    kind := { get_type := some 0 } }] }] }

/-- C1 fails on the code: run.rs:305-310 computes the rule's truth with
`find(|c| c.match_is_met).is_some()` — an OR over the rule's conditions —
although its own comment says "The condition is met iff all of the matches are
met" and the spec demands the AND. Processing a single `EnterRange` that
satisfies only the first of `scriptC1`'s two conditions leaves the stored
`rule_is_met` true (and even dispatches the statements), while the claim's
AND-of-OR formula evaluates to false. -/
theorem C1_conjunction_bug_eval :
    ((step scriptC1 (initState scriptC1) 0 0 (.EnterRange 5 ⟨0, 7⟩)).1.getD 0
        dfltRule).rule_is_met = true
    ∧ (((step scriptC1 (initState scriptC1) 0 0 (.EnterRange 5 ⟨0, 7⟩)).1.getD 0
        dfltRule).per_condition.all
          (fun c => c.per_getter.any (fun p => p.2))) = false
    ∧ (step scriptC1 (initState scriptC1) 0 0 (.EnterRange 5 ⟨0, 7⟩)).2 ≠ [] := by
  refine ⟨by decide, by decide, by decide⟩
/-!
## Helper lemmas about the compiler
-/

/-- `util::map` reports the error of the first failing element: if every
element before position `i` succeeds and position `i` fails with `e`, the map
fails with `e`. -/
theorem map_eq_error_of_first {l : List α} {f : α → Except ε β} {i : Nat} {d : α} {e : ε}
    (hi : i < l.length)
    (hok : ∀ j, j < i → ∃ y, f (l.getD j d) = .ok y)
    (herr : f (l.getD i d) = .error e) : map l f = .error e := by
  induction l generalizing i with
  | nil => exact absurd hi (by simp)
  | cons x xs ih =>
    cases i with
    | zero =>
      simp only [List.getD_cons_zero] at herr
      simp [map, herr]
    | succ n =>
      obtain ⟨y, hy⟩ := hok 0 (Nat.succ_pos n)
      simp only [List.getD_cons_zero] at hy
      simp only [List.getD_cons_succ] at herr
      have hrec := ih (Nat.lt_of_succ_lt_succ hi)
        (fun j hj => by simpa using hok (j + 1) (Nat.succ_lt_succ hj)) herr
      simp [map, hy, hrec]

/-- `util::map` succeeds exactly when the function succeeds on every element. -/
theorem map_ok_iff {l : List α} {f : α → Except ε β} :
    (∃ ys, map l f = .ok ys) ↔ ∀ x ∈ l, ∃ y, f x = .ok y := by
  induction l with
  | nil => simp [map]
  | cons x xs ih =>
    constructor
    · rintro ⟨ys, hys⟩
      unfold map at hys
      cases hx : f x with
      | error e => simp [hx] at hys
      | ok y =>
        rw [hx] at hys
        cases hxs : map xs f with
        | error e => simp [hxs] at hys
        | ok ys' =>
          intro a ha
          rcases List.mem_cons.mp ha with rfl | ha
          · exact ⟨y, hx⟩
          · exact ih.mp ⟨ys', hxs⟩ a ha
    · intro h
      obtain ⟨y, hy⟩ := h x (List.mem_cons_self x xs)
      obtain ⟨ys, hys⟩ := ih.mpr (fun a ha => h a (List.mem_cons_of_mem x ha))
      exact ⟨y :: ys, by simp [map, hy, hys]⟩

/-- `compile_match` succeeds exactly when the range's inferred type equals the
kind's type (validation rule 3 of §4.1 as the code checks it). -/
theorem compile_match_ok_iff {m : Match} :
    (∃ m', compile_match m = .ok m') ↔ m.range.get_type = .ok m.kind.get_type := by
  unfold compile_match
  cases hr : m.range.get_type with
  | error e => simp
  | ok typ =>
    by_cases hk : m.kind.get_type = typ
    · simp [hk]
    · simp [hk, Ne.symm hk]

/-- The validation rules of §4.1 for a single rule, as the code checks them:
non-empty `execute`, non-empty `conditions`, and every Match's range type
agreeing with its kind. -/
def RuleValid (r : Rule) : Prop :=
  r.execute ≠ [] ∧ r.conditions ≠ [] ∧
    ∀ m ∈ r.conditions, m.range.get_type = .ok m.kind.get_type

instance (r : Rule) : Decidable (RuleValid r) := by
  unfold RuleValid
  infer_instance

/-- `compile_trigger` succeeds exactly on valid rules. -/
theorem compile_trigger_ok_iff {r : Rule} :
    (∃ r', compile_trigger r = .ok r') ↔ RuleValid r := by
  unfold compile_trigger RuleValid
  by_cases he : r.execute.length = 0
  · simp [he, List.length_eq_zero.mp he]
  · by_cases hc : r.conditions.length = 0
    · rw [if_neg he, if_pos hc]
      simp [List.length_eq_zero.mp hc]
    · rw [if_neg he, if_neg hc]
      have hne : r.execute ≠ [] := fun h => he (by simp [h])
      have hnc : r.conditions ≠ [] := fun h => hc (by simp [h])
      cases hm : map r.conditions (fun m => compile_match m) with
      | error e =>
        simp only [hne, hnc, ne_eq, not_false_iff, true_and]
        constructor
        · rintro ⟨r', hr'⟩
          exact absurd hr' (by simp)
        · intro hall
          obtain ⟨ys, hys⟩ := map_ok_iff.mpr
            (fun m hmem => compile_match_ok_iff.mpr (hall m hmem))
          rw [hm] at hys
          exact absurd hys (by simp)
      | ok conditions =>
        cases hs : map r.execute (fun s => compile_statement s) with
        | error e =>
          exfalso
          obtain ⟨ys, hys⟩ := map_ok_iff.mpr
            (fun s _ => ⟨_, rfl⟩ : ∀ s ∈ r.execute, ∃ y, compile_statement s = .ok y)
          rw [hs] at hys
          exact absurd hys (by simp)
        | ok execute =>
          simp only [hne, hnc, ne_eq, not_false_iff, true_and]
          constructor
          · intro _ m hmem
            exact compile_match_ok_iff.mp
              (map_ok_iff.mp ⟨conditions, hm⟩ m hmem)
          · intro _
            exact ⟨_, rfl⟩
/-- A rule without statements is rejected as `NoStatements`. -/
theorem compile_trigger_no_statements {r : Rule} (h : r.execute = []) :
    compile_trigger r = .error (.SourceError .NoStatements) := by
  unfold compile_trigger
  simp [h]

/-- A rule with statements but without conditions is rejected as
`NoConditions`. -/
theorem compile_trigger_no_conditions {r : Rule} (h1 : r.execute ≠ [])
    (h2 : r.conditions = []) :
    compile_trigger r = .error (.SourceError .NoConditions) := by
  unfold compile_trigger
  rw [if_neg (by simpa using h1), if_pos (by simp [h2])]

/-- C3: The compiler rejects malformed scripts with the corresponding
structured error, reporting the first violation in document order and
accumulating no further errors: an empty rules sequence yields
`SourceError::NoRules`; otherwise, for the first offending rule in order, an
empty `execute` yields `SourceError::NoStatements` and an empty `conditions`
yields `SourceError::NoConditions`; a script violating none of the validation
rules compiles to `Ok`. -/
theorem C3_compile_first_violation :
    (∀ s : Script, s.rules = [] → compile_script s = .error (.SourceError .NoRules))
    ∧ (∀ (s : Script) (i : Nat), i < s.rules.length →
        (∀ j, j < i → RuleValid (s.rules.getD j dfltScriptRule)) →
        (((s.rules.getD i dfltScriptRule).execute = [] →
            compile_script s = .error (.SourceError .NoStatements))
          ∧ ((s.rules.getD i dfltScriptRule).execute ≠ [] →
              (s.rules.getD i dfltScriptRule).conditions = [] →
              compile_script s = .error (.SourceError .NoConditions))))
    ∧ (∀ s : Script, s.rules ≠ [] → (∀ r ∈ s.rules, RuleValid r) →
        ∃ s', compile_script s = .ok s') := by
  refine ⟨?_, ?_, ?_⟩
  · intro s h
    unfold compile_script
    simp [h]
  · intro s i hi hok
    have hlen : ¬ s.rules.length = 0 := by omega
    have hpre : ∀ j, j < i →
        ∃ y, compile_trigger (s.rules.getD j dfltScriptRule) = .ok y :=
      fun j hj => compile_trigger_ok_iff.mpr (hok j hj)
    constructor
    · intro hexec
      unfold compile_script
      rw [if_neg hlen,
        map_eq_error_of_first hi hpre (compile_trigger_no_statements hexec)]
    · intro hexec hcond
      unfold compile_script
      rw [if_neg hlen,
        map_eq_error_of_first hi hpre (compile_trigger_no_conditions hexec hcond)]
  · intro s hne hall
    obtain ⟨ys, hys⟩ := map_ok_iff.mpr
      (fun r hr => compile_trigger_ok_iff.mpr (hall r hr))
    unfold compile_script
    rw [if_neg (by simpa using hne), hys]
    exact ⟨_, rfl⟩

/-- A well-formed rule used by the C3 witness. -/
def ruleGoodC3 : Rule :=
  { conditions := [{ source := [], kind := ⟨some 0⟩, range := .Geq ⟨0, 3⟩ }],
    execute := [{ destination := [], value := ⟨0, 1⟩, kind := ⟨some 0⟩ }] }

/-- A rule with no statements used by the C3 witness. -/
def ruleBadC3 : Rule :=
  { conditions := [{ source := [], kind := ⟨some 0⟩, range := .Geq ⟨0, 3⟩ }],
    execute := [] }

/-- Witness for C3 at concrete inputs: the empty script is `NoRules`; a script
whose second rule (the first offending one) has no statements is
`NoStatements`; a fully valid script compiles. -/
theorem C3_compile_first_violation_witness :
    compile_script { rules := [] } = .error (.SourceError .NoRules)
    ∧ compile_script { rules := [ruleGoodC3, ruleBadC3] } =
        .error (.SourceError .NoStatements)
    ∧ ∃ s', compile_script { rules := [ruleGoodC3] } = .ok s' :=
  ⟨C3_compile_first_violation.1 { rules := [] } rfl,
   (C3_compile_first_violation.2.1 { rules := [ruleGoodC3, ruleBadC3] } 1 (by decide)
      (fun j hj => by
        have hj0 : j = 0 := by omega
        subst hj0
        decide)).1 (by decide),
   C3_compile_first_violation.2.2 { rules := [ruleGoodC3] } (by decide)
     (fun r hr => by
       have : r = ruleGoodC3 := by simpa using hr
       subst this
       decide)⟩
/-!
## Helper lemmas about list state updates and the per-getter map
-/

/-- Reading back a just-written list slot. -/
theorem getD_set_self {l : List α} {i : Nat} (a d : α) (h : i < l.length) :
    (l.set i a).getD i d = a := by
  simp [List.getD, List.getElem?_set_self', h]

/-- Reading an untouched list slot. -/
theorem getD_set_ne {l : List α} {i j : Nat} (a d : α) (h : i ≠ j) :
    (l.set i a).getD j d = l.getD j d := by
  simp [List.getD, List.getElem?_set_ne h]

/-- Writing a slot's own current value changes nothing. -/
theorem set_getD_self : ∀ (l : List α) (i : Nat) (d : α), i < l.length →
    l.set i (l.getD i d) = l := by
  intro l
  induction l with
  | nil => intro i d h; simp at h
  | cons x xs ih =>
    intro i d h
    cases i with
    | zero => simp
    | succ n =>
      simp only [List.getD_cons_succ, List.set_cons_succ, List.cons.injEq, true_and]
      exact ih n d (by simpa using h)

/-- If the map holds a key equal to `id`, updating in place finds `(id, b)`. -/
theorem find_map_upd {m : List (Nat × Bool)} {id : Nat} {b : Bool}
    (h : m.any (fun p => p.1 == id) = true) :
    (m.map (fun p => if p.1 == id then (id, b) else p)).find?
      (fun p => p.1 == id) = some (id, b) := by
  induction m with
  | nil => simp at h
  | cons x xs ih =>
    by_cases hx : (x.1 == id) = true
    · rw [List.map_cons, if_pos hx]
      simp only [List.find?, beq_self_eq_true]
    · have hxf : (x.1 == id) = false := Bool.eq_false_iff.mpr (by simpa using hx)
      simp only [List.any_cons, hxf, Bool.false_or] at h
      rw [List.map_cons, if_neg hx]
      simp only [List.find?, hxf]
      exact ih h

/-- Updating key `id` in place does not affect lookups of other keys. -/
theorem find_map_upd_ne {m : List (Nat × Bool)} {id id' : Nat} {b : Bool}
    (h : id' ≠ id) :
    (m.map (fun p => if p.1 == id then (id, b) else p)).find?
      (fun p => p.1 == id') = m.find? (fun p => p.1 == id') := by
  induction m with
  | nil => simp
  | cons x xs ih =>
    by_cases hx : (x.1 == id) = true
    · have hx' : (x.1 == id') = false := by
        simp only [beq_iff_eq] at hx
        simp [hx, Ne.symm h]
      have hid' : ((id : Nat) == id') = false := by simp [Ne.symm h]
      rw [List.map_cons, if_pos hx]
      simp only [List.find?, hx', hid']
      exact ih
    · by_cases hx' : (x.1 == id') = true
      · rw [List.map_cons, if_neg hx]
        simp only [List.find?, hx']
      · have hx'f : (x.1 == id') = false := Bool.eq_false_iff.mpr (by simpa using hx')
        rw [List.map_cons, if_neg hx]
        simp only [List.find?, hx'f]
        exact ih

/-- If no entry has key `id`, updating key `id` in place changes nothing. -/
theorem map_upd_of_not_mem {m : List (Nat × Bool)} {id : Nat} {b : Bool}
    (h : m.any (fun p => p.1 == id) = false) :
    m.map (fun p => if p.1 == id then (id, b) else p) = m := by
  induction m with
  | nil => rfl
  | cons x xs ih =>
    rw [List.any_cons, Bool.or_eq_false_iff] at h
    rw [List.map_cons, if_neg (by simp [h.1]), ih h.2]

/-- `HashMap::insert` is idempotent: inserting the same flag for the same
sensor twice is one insertion. -/
theorem mapInsert_idem (id : Nat) (b : Bool) (m : List (Nat × Bool)) :
    mapInsert id b (mapInsert id b m) = mapInsert id b m := by
  unfold mapInsert
  by_cases h : m.any (fun p => p.1 == id) = true
  · rw [if_pos h]
    have hany : (m.map (fun p => if p.1 == id then (id, b) else p)).any
        (fun p => p.1 == id) = true := by
      obtain ⟨p, hp, hpk⟩ := List.any_eq_true.mp h
      exact List.any_eq_true.mpr ⟨_, List.mem_map_of_mem _ hp, by simp [hpk]⟩
    rw [if_pos hany, List.map_map]
    refine List.map_congr_left (fun p _ => ?_)
    show (if ((if p.1 == id then (id, b) else p).1 == id) = true then (id, b)
        else if p.1 == id then (id, b) else p) = if p.1 == id then (id, b) else p
    by_cases hpk : (p.1 == id) = true
    · rw [if_pos hpk]
      simp
    · rw [if_neg hpk, if_neg hpk]
  · rw [if_neg h]
    have hf : m.any (fun p => p.1 == id) = false := Bool.eq_false_iff.mpr (by simpa using h)
    have hany : ((id, b) :: m).any (fun p => p.1 == id) = true := by simp
    rw [if_pos hany, List.map_cons, map_upd_of_not_mem hf, if_pos (by simp : (((id, b) : Nat × Bool).1 == id) = true)]

/-- Lookup of the inserted key: the stored flag is overwritten. -/
theorem mapLookup_mapInsert_self (id : Nat) (b : Bool) (m : List (Nat × Bool)) :
    mapLookup id (mapInsert id b m) = some b := by
  unfold mapLookup mapInsert
  by_cases h : m.any (fun p => p.1 == id) = true
  · rw [if_pos h, find_map_upd h]
    rfl
  · rw [if_neg h]
    simp only [List.find?, beq_self_eq_true]
    rfl

/-- Lookup of a different key is unaffected by an insertion. -/
theorem mapLookup_mapInsert_ne {id id' : Nat} (b : Bool) (m : List (Nat × Bool))
    (h : id' ≠ id) : mapLookup id' (mapInsert id b m) = mapLookup id' m := by
  unfold mapLookup mapInsert
  by_cases hm : m.any (fun p => p.1 == id) = true
  · rw [if_pos hm, find_map_upd_ne h]
  · rw [if_neg hm]
    simp only [List.find?, show ((id : Nat) == id') = false by simp [Ne.symm h]]

/-- Lookup of the removed key yields nothing. -/
theorem mapLookup_mapRemove_self (id : Nat) (m : List (Nat × Bool)) :
    mapLookup id (mapRemove id m) = none := by
  unfold mapLookup mapRemove
  have hnone : (m.filter (fun p => p.1 != id)).find? (fun p => p.1 == id) = none := by
    rw [List.find?_eq_none]
    intro x hx
    have := (List.mem_filter.mp hx).2
    simpa using this
  rw [hnone]
  rfl

/-- Lookup of a different key is unaffected by a removal. -/
theorem mapLookup_mapRemove_ne {id id' : Nat} (m : List (Nat × Bool))
    (h : id' ≠ id) : mapLookup id' (mapRemove id m) = mapLookup id' m := by
  unfold mapLookup mapRemove
  induction m with
  | nil => rfl
  | cons x xs ih =>
    by_cases hx : (x.1 == id) = true
    · have hbne : (x.1 != id) = false := by
        simp only [bne, hx, Bool.not_true]
      have hx' : (x.1 == id') = false := by
        simp only [beq_iff_eq] at hx
        simp [hx, Ne.symm h]
      simp only [List.filter, hbne, List.find?, hx']
      exact ih
    · have hbne : (x.1 != id) = true := by
        simp only [bne, Bool.eq_false_iff.mpr hx, Bool.not_false]
      by_cases hx' : (x.1 == id') = true
      · simp only [List.filter, hbne, List.find?, hx']
      · have hx'f : (x.1 == id') = false := Bool.eq_false_iff.mpr (by simpa using hx')
        simp only [List.filter, hbne, List.find?, hx'f]
        exact ih
/-- Shape of the state after a `GetterAdded`/`GetterRemoved` event: only the
per-getter map of the addressed condition changes (by `f`); every
`rule_is_met` and every `match_is_met` flag is untouched, as is every other
condition. -/
theorem setCond_facts (st : List RuleState) (r c : Nat)
    (f : List (Nat × Bool) → List (Nat × Bool)) (hr : r < st.length)
    (hc : c < (st.getD r dfltRule).per_condition.length) :
    (∀ i, ((st.set r { st.getD r dfltRule with
        per_condition := (st.getD r dfltRule).per_condition.set c
          { (st.getD r dfltRule).per_condition.getD c dfltCond with
            per_getter := f ((st.getD r dfltRule).per_condition.getD c dfltCond).per_getter } }).getD
          i dfltRule).rule_is_met = (st.getD i dfltRule).rule_is_met)
    ∧ (∀ i j, (((st.set r { st.getD r dfltRule with
        per_condition := (st.getD r dfltRule).per_condition.set c
          { (st.getD r dfltRule).per_condition.getD c dfltCond with
            per_getter := f ((st.getD r dfltRule).per_condition.getD c dfltCond).per_getter } }).getD
          i dfltRule).per_condition.getD j dfltCond).match_is_met =
        (((st.getD i dfltRule).per_condition.getD j dfltCond)).match_is_met)
    ∧ (((st.set r { st.getD r dfltRule with
        per_condition := (st.getD r dfltRule).per_condition.set c
          { (st.getD r dfltRule).per_condition.getD c dfltCond with
            per_getter := f ((st.getD r dfltRule).per_condition.getD c dfltCond).per_getter } }).getD
          r dfltRule).per_condition.getD c dfltCond).per_getter =
        f ((st.getD r dfltRule).per_condition.getD c dfltCond).per_getter
    ∧ (∀ i j, ¬(i = r ∧ j = c) →
        ((st.set r { st.getD r dfltRule with
        per_condition := (st.getD r dfltRule).per_condition.set c
          { (st.getD r dfltRule).per_condition.getD c dfltCond with
            per_getter := f ((st.getD r dfltRule).per_condition.getD c dfltCond).per_getter } }).getD
          i dfltRule).per_condition.getD j dfltCond =
        (st.getD i dfltRule).per_condition.getD j dfltCond) := by
  refine ⟨?_, ?_, ?_, ?_⟩
  · intro i
    by_cases hi : r = i
    · subst hi
      rw [getD_set_self _ _ hr]
    · rw [getD_set_ne _ _ hi]
  · intro i j
    by_cases hi : r = i
    · subst hi
      rw [getD_set_self _ _ hr]
      show (((st.getD r dfltRule).per_condition.set c _).getD j dfltCond).match_is_met = _
      by_cases hj : c = j
      · subst hj
        rw [getD_set_self _ _ hc]
      · rw [getD_set_ne _ _ hj]
    · rw [getD_set_ne _ _ hi]
  · rw [getD_set_self _ _ hr]
    show (((st.getD r dfltRule).per_condition.set c _).getD c dfltCond).per_getter = _
    rw [getD_set_self _ _ hc]
  · intro i j hij
    by_cases hi : r = i
    · subst hi
      rw [getD_set_self _ _ hr]
      show ((st.getD r dfltRule).per_condition.set c _).getD j dfltCond = _
      have hj : c ≠ j := fun h => hij ⟨rfl, h.symm⟩
      rw [getD_set_ne _ _ hj]
    · rw [getD_set_ne _ _ hi]
/-- C10: Processing a `GetterAdded` or `GetterRemoved` event never dispatches
any statement and never changes any condition's `match_is_met` flag or any
rule's `rule_is_met` flag: `GetterAdded` only inserts the sensor id mapped to
`false` into the condition's per-sensor map (overwriting any stored flag for
that id), `GetterRemoved` only removes the id, every other condition state is
untouched, and edge detection (with its dispatch) runs only while processing
`EnterRange` or `ExitRange` events. -/
theorem C10_getter_events_no_edge (script : Script) (st : List RuleState)
    (r c id : Nat) (hr : r < st.length)
    (hc : c < (st.getD r dfltRule).per_condition.length) :
    (step script st r c (.GetterAdded id)).2 = []
    ∧ (step script st r c (.GetterRemoved id)).2 = []
    ∧ (∀ i, ((step script st r c (.GetterAdded id)).1.getD i dfltRule).rule_is_met =
        (st.getD i dfltRule).rule_is_met)
    ∧ (∀ i, ((step script st r c (.GetterRemoved id)).1.getD i dfltRule).rule_is_met =
        (st.getD i dfltRule).rule_is_met)
    ∧ (∀ i j, (((step script st r c (.GetterAdded id)).1.getD i dfltRule).per_condition.getD
          j dfltCond).match_is_met =
        (((st.getD i dfltRule).per_condition.getD j dfltCond)).match_is_met)
    ∧ (∀ i j, (((step script st r c (.GetterRemoved id)).1.getD i dfltRule).per_condition.getD
          j dfltCond).match_is_met =
        (((st.getD i dfltRule).per_condition.getD j dfltCond)).match_is_met)
    ∧ (∀ id', mapLookup id'
          ((((step script st r c (.GetterAdded id)).1.getD r dfltRule).per_condition.getD
            c dfltCond).per_getter) =
        if id' = id then some false
        else mapLookup id' (((st.getD r dfltRule).per_condition.getD c dfltCond).per_getter))
    ∧ (∀ id', mapLookup id'
          ((((step script st r c (.GetterRemoved id)).1.getD r dfltRule).per_condition.getD
            c dfltCond).per_getter) =
        if id' = id then none
        else mapLookup id' (((st.getD r dfltRule).per_condition.getD c dfltCond).per_getter))
    ∧ (∀ i j, ¬(i = r ∧ j = c) →
        ((step script st r c (.GetterAdded id)).1.getD i dfltRule).per_condition.getD j dfltCond =
          (st.getD i dfltRule).per_condition.getD j dfltCond
        ∧ ((step script st r c (.GetterRemoved id)).1.getD i dfltRule).per_condition.getD
            j dfltCond = (st.getD i dfltRule).per_condition.getD j dfltCond) := by
  have hA := setCond_facts st r c (mapInsert id false) hr hc
  have hR := setCond_facts st r c (mapRemove id) hr hc
  refine ⟨rfl, rfl, hA.1, hR.1, hA.2.1, hR.2.1, ?_, ?_, fun i j hij => ⟨hA.2.2.2 i j hij, hR.2.2.2 i j hij⟩⟩
  · intro id'
    show mapLookup id' _ = _
    rw [show (((step script st r c (.GetterAdded id)).1.getD r dfltRule).per_condition.getD
        c dfltCond).per_getter =
      mapInsert id false (((st.getD r dfltRule).per_condition.getD c dfltCond).per_getter)
      from hA.2.2.1]
    by_cases hid : id' = id
    · subst hid
      rw [if_pos rfl, mapLookup_mapInsert_self]
    · rw [if_neg hid, mapLookup_mapInsert_ne _ _ hid]
  · intro id'
    rw [show (((step script st r c (.GetterRemoved id)).1.getD r dfltRule).per_condition.getD
        c dfltCond).per_getter =
      mapRemove id (((st.getD r dfltRule).per_condition.getD c dfltCond).per_getter)
      from hR.2.2.1]
    by_cases hid : id' = id
    · subst hid
      rw [if_pos rfl, mapLookup_mapRemove_self]
    · rw [if_neg hid, mapLookup_mapRemove_ne _ hid]
/-- Concrete one-rule, one-condition state used by the C10 witness, with a
stored `true` flag for sensor 3. -/
def stW10 : List RuleState :=
  [{ rule_is_met := false,
     per_condition := [{ match_is_met := false, per_getter := [(3, true)], range := .Any }] }]

/-- Witness for C10 at a concrete input: `GetterAdded 3` dispatches nothing
and overwrites the stored flag for sensor 3 with `false`. -/
theorem C10_getter_events_no_edge_witness :
    (0 : Nat) < stW10.length
    ∧ (step { rules := [] } stW10 0 0 (.GetterAdded 3)).2 = []
    ∧ mapLookup 3 ((((step { rules := [] } stW10 0 0 (.GetterAdded 3)).1.getD 0
          dfltRule).per_condition.getD 0 dfltCond).per_getter) =
        (if (3 : Nat) = 3 then some false
         else mapLookup 3 (((stW10.getD 0 dfltRule).per_condition.getD 0 dfltCond).per_getter)) :=
  ⟨by decide,
   (C10_getter_events_no_edge { rules := [] } stW10 0 0 3 (by decide) (by decide)).1,
   (C10_getter_events_no_edge { rules := [] } stW10 0 0 3 (by decide)
      (by decide)).2.2.2.2.2.2.1 3⟩

/-- Re-processing the same value event on a condition state that already
absorbed it changes nothing: the recomputed flag, the insertion and the
recomputed match flag all coincide with the stored ones. -/
theorem condition_processValue_idem (cs : ConditionState) (id : Nat) (v : Value) :
    (cs.processValue id v).processValue id v = cs.processValue id v := by
  unfold ConditionState.processValue
  simp only [mapInsert_idem]

/-- Re-processing the same value event on a rule state that already absorbed
it returns the same state and no rising edge. -/
theorem rule_processValue_idem (rs : RuleState) (c id : Nat) (v : Value)
    (hc : c < rs.per_condition.length) :
    (rs.processValue c id v).1.processValue c id v = ((rs.processValue c id v).1, false) := by
  unfold RuleState.processValue
  have hg : ((rs.per_condition.set c ((rs.per_condition.getD c dfltCond).processValue id v)).getD
      c dfltCond) = (rs.per_condition.getD c dfltCond).processValue id v :=
    getD_set_self _ _ (by simpa using hc)
  simp only [hg, condition_processValue_idem, List.set_set]
  simp
/-- C5: Processing the same `EnterRange{id, v}` event twice in succession
(same sensor, same value, same rule and condition indices, from any state)
produces at most one firing: the second processing leaves all truth state
unchanged and dispatches nothing. -/
theorem C5_enter_range_idempotent (script : Script) (st : List RuleState)
    (r c id : Nat) (v : Value) (hr : r < st.length)
    (hc : c < (st.getD r dfltRule).per_condition.length) :
    step script (step script st r c (.EnterRange id v)).1 r c (.EnterRange id v) =
      ((step script st r c (.EnterRange id v)).1, []) := by
  have hstepEq : ∀ st2 : List RuleState, step script st2 r c (.EnterRange id v) =
      (st2.set r ((st2.getD r dfltRule).processValue c id v).1,
       if ((st2.getD r dfltRule).processValue c id v).2 then
         (List.range (script.rules.getD r dfltScriptRule).execute.length).map
           (fun statement_index => .Sent r statement_index)
       else []) := fun _ => rfl
  have hg : ((st.set r ((st.getD r dfltRule).processValue c id v).1).getD r dfltRule) =
      ((st.getD r dfltRule).processValue c id v).1 := getD_set_self _ _ hr
  rw [hstepEq, hstepEq, hg, rule_processValue_idem _ _ _ _ hc]
  simp [List.set_set]

/-- Concrete one-rule script used by the C5 witness. -/
def scriptW5 : Script :=
  { rules := [{
      conditions := [{ source := [{ id := 0, kind := none }], kind := ⟨some 0⟩,
                       range := .Geq ⟨0, 3⟩ }],
      execute := [{ destination := [{ id := 9, kind := none }], value := ⟨0, 1⟩,
                    kind := ⟨some 0⟩ }] }] }

/-- Witness for C5 at a concrete input: re-delivering `EnterRange{1, (0,5)}`
right after it fired once leaves the state unchanged and dispatches nothing. -/
theorem C5_enter_range_idempotent_witness :
    step scriptW5 (step scriptW5 (initState scriptW5) 0 0 (.EnterRange 1 ⟨0, 5⟩)).1 0 0
        (.EnterRange 1 ⟨0, 5⟩) =
      ((step scriptW5 (initState scriptW5) 0 0 (.EnterRange 1 ⟨0, 5⟩)).1, []) :=
  C5_enter_range_idempotent scriptW5 (initState scriptW5) 0 0 1 ⟨0, 5⟩ (by decide) (by decide)

/-- Discriminator for statement-dispatch events among the events the task
sends. -/
def isSentEvent : ExecutionEvent → Bool
  | .Sent _ _ => true
  | .ChannelError _ => false

/-- A dispatched statement list consists solely of `Sent` events. -/
theorem filter_isSentEvent_range (n r' : Nat) :
    ((List.range n).map (fun statement_index => ExecutionEvent.Sent r' statement_index)).filter
      isSentEvent =
    (List.range n).map (fun statement_index => ExecutionEvent.Sent r' statement_index) := by
  refine List.filter_eq_self.mpr (fun x hx => ?_)
  obtain ⟨a, _, rfl⟩ := List.mem_map.mp hx
  rfl

/-- C2: the execution task dispatches a rule's statements exactly on a rising
edge of that rule's stored truth value — the `Sent` events produced while
processing one event are the rule's statements in document order when
`rule_is_met` goes from false to true, and nothing otherwise (falling edges,
same-state updates, events that leave the flag true, getter bookkeeping and
initialization errors dispatch nothing). -/
theorem C2_rising_edge_only (script : Script) (st : List RuleState)
    (r c : Nat) (ev : WatchEvent) (hr : r < st.length) :
    (step script st r c ev).2.filter isSentEvent =
      if (st.getD r dfltRule).rule_is_met = false
          ∧ ((step script st r c ev).1.getD r dfltRule).rule_is_met = true then
        (List.range (script.rules.getD r dfltScriptRule).execute.length).map
          (fun statement_index => ExecutionEvent.Sent r statement_index)
      else [] := by
  cases ev with
  | GetterAdded id =>
    have hnew : ((step script st r c (.GetterAdded id)).1.getD r dfltRule).rule_is_met =
        (st.getD r dfltRule).rule_is_met := by
      rw [show (step script st r c (.GetterAdded id)).1 = st.set r
        { st.getD r dfltRule with
          per_condition := (st.getD r dfltRule).per_condition.set c
            { (st.getD r dfltRule).per_condition.getD c dfltCond with
              per_getter := mapInsert id false
                ((st.getD r dfltRule).per_condition.getD c dfltCond).per_getter } } from rfl,
        getD_set_self _ _ hr]
    rw [if_neg]
    · rfl
    · rintro ⟨h1, h2⟩
      rw [hnew, h1] at h2
      simp at h2
  | GetterRemoved id =>
    have hnew : ((step script st r c (.GetterRemoved id)).1.getD r dfltRule).rule_is_met =
        (st.getD r dfltRule).rule_is_met := by
      rw [show (step script st r c (.GetterRemoved id)).1 = st.set r
        { st.getD r dfltRule with
          per_condition := (st.getD r dfltRule).per_condition.set c
            { (st.getD r dfltRule).per_condition.getD c dfltCond with
              per_getter := mapRemove id
                ((st.getD r dfltRule).per_condition.getD c dfltCond).per_getter } } from rfl,
        getD_set_self _ _ hr]
    rw [if_neg]
    · rfl
    · rintro ⟨h1, h2⟩
      rw [hnew, h1] at h2
      simp at h2
  | InitializationError id =>
    rw [if_neg]
    · rfl
    · rintro ⟨h1, h2⟩
      have hst : (step script st r c (.InitializationError id)).1 = st := rfl
      rw [hst, h1] at h2
      simp at h2
  | EnterRange id value =>
    have hnew : ((step script st r c (.EnterRange id value)).1.getD r dfltRule) =
        ((st.getD r dfltRule).processValue c id value).1 := by
      rw [show (step script st r c (.EnterRange id value)).1 =
        st.set r ((st.getD r dfltRule).processValue c id value).1 from rfl,
        getD_set_self _ _ hr]
    have hfire : ((st.getD r dfltRule).processValue c id value).2 =
        (!(st.getD r dfltRule).rule_is_met &&
          ((st.getD r dfltRule).processValue c id value).1.rule_is_met) := rfl
    have hout : (step script st r c (.EnterRange id value)).2 =
        (if ((st.getD r dfltRule).processValue c id value).2 then
          (List.range (script.rules.getD r dfltScriptRule).execute.length).map
            (fun statement_index => .Sent r statement_index)
        else []) := rfl
    cases hb : ((st.getD r dfltRule).processValue c id value).2 with
    | false =>
      have hR : ¬((st.getD r dfltRule).rule_is_met = false
          ∧ ((step script st r c (.EnterRange id value)).1.getD r dfltRule).rule_is_met = true) := by
        rintro ⟨h1, h2⟩
        rw [hfire, h1] at hb
        rw [hnew] at h2
        rw [h2] at hb
        simp at hb
      rw [hout, hb, if_neg (by simp : ¬(false = true)), if_neg hR]
      rfl
    | true =>
      have hcond := hb
      rw [hfire, Bool.and_eq_true] at hcond
      have hL : (st.getD r dfltRule).rule_is_met = false
          ∧ ((step script st r c (.EnterRange id value)).1.getD r dfltRule).rule_is_met = true := by
        refine ⟨by simpa using hcond.1, ?_⟩
        rw [hnew]
        exact hcond.2
      rw [hout, hb, if_pos (rfl : true = true), if_pos hL]
      exact filter_isSentEvent_range _ _
  | ExitRange id value =>
    have hnew : ((step script st r c (.ExitRange id value)).1.getD r dfltRule) =
        ((st.getD r dfltRule).processValue c id value).1 := by
      rw [show (step script st r c (.ExitRange id value)).1 =
        st.set r ((st.getD r dfltRule).processValue c id value).1 from rfl,
        getD_set_self _ _ hr]
    have hfire : ((st.getD r dfltRule).processValue c id value).2 =
        (!(st.getD r dfltRule).rule_is_met &&
          ((st.getD r dfltRule).processValue c id value).1.rule_is_met) := rfl
    have hout : (step script st r c (.ExitRange id value)).2 =
        (if ((st.getD r dfltRule).processValue c id value).2 then
          (List.range (script.rules.getD r dfltScriptRule).execute.length).map
            (fun statement_index => .Sent r statement_index)
        else []) := rfl
    cases hb : ((st.getD r dfltRule).processValue c id value).2 with
    | false =>
      have hR : ¬((st.getD r dfltRule).rule_is_met = false
          ∧ ((step script st r c (.ExitRange id value)).1.getD r dfltRule).rule_is_met = true) := by
        rintro ⟨h1, h2⟩
        rw [hfire, h1] at hb
        rw [hnew] at h2
        rw [h2] at hb
        simp at hb
      rw [hout, hb, if_neg (by simp : ¬(false = true)), if_neg hR]
      rfl
    | true =>
      have hcond := hb
      rw [hfire, Bool.and_eq_true] at hcond
      have hL : (st.getD r dfltRule).rule_is_met = false
          ∧ ((step script st r c (.ExitRange id value)).1.getD r dfltRule).rule_is_met = true := by
        refine ⟨by simpa using hcond.1, ?_⟩
        rw [hnew]
        exact hcond.2
      rw [hout, hb, if_pos (rfl : true = true), if_pos hL]
      exact filter_isSentEvent_range _ _

/-- Concrete one-rule script with two statements used by the C2 witness. -/
def scriptW2 : Script :=
  { rules := [{
      conditions := [{ source := [{ id := 0, kind := none }], kind := ⟨some 0⟩,
                       range := .Geq ⟨0, 3⟩ }],
      execute := [
        { destination := [{ id := 8, kind := none }], value := ⟨0, 1⟩, kind := ⟨some 0⟩ },
        { destination := [{ id := 9, kind := none }], value := ⟨0, 2⟩, kind := ⟨some 0⟩ }] }] }

/-- Witness for C2 at a concrete input: the first satisfying `EnterRange` is a
rising edge, so the filtered output is exactly the rule's two statements in
document order. -/
theorem C2_rising_edge_only_witness :
    (step scriptW2 (initState scriptW2) 0 0 (.EnterRange 1 ⟨0, 5⟩)).2.filter isSentEvent =
      if (List.getD (initState scriptW2) 0 dfltRule).rule_is_met = false
          ∧ ((step scriptW2 (initState scriptW2) 0 0 (.EnterRange 1 ⟨0, 5⟩)).1.getD 0
              dfltRule).rule_is_met = true then
        (List.range (scriptW2.rules.getD 0 dfltScriptRule).execute.length).map
          (fun statement_index => ExecutionEvent.Sent 0 statement_index)
      else [] :=
  C2_rising_edge_only scriptW2 (initState scriptW2) 0 0 (.EnterRange 1 ⟨0, 5⟩) (by decide)
